import Mathlib

/-!
Verification of the neural-network 3D visualization (script.js).

The development shallowly embeds the layout, connection-sampling, pulse and
fade logic of the source into Lean:

* numbers that JavaScript holds in doubles are modelled as rationals, with
  JS Math.floor becoming the integer floor on the rationals;
* calls to Math.random() are modelled by explicit oracle streams of rational
  values; every theorem that inspects a randomly chosen element assumes the
  oracle yields values in [0, 1), exactly the contract of Math.random;
* render-only data (positions, geometry, materials, flash phase offsets) is
  omitted from the records, since no claim below mentions it.
-/

namespace NeuralNetAnim

/-- CONFIG.connectionSampleRate = 0.015. -/
def connectionSampleRate : ℚ := 15/1000

/-- CONFIG.connectionOpacity = 0.08. -/
def connectionOpacity : ℚ := 8/100

/-- CONFIG.layers of script.js. -/
def configLayers : List ℕ := [16, 10000, 10000, 10000, 25]

/-- An RGB color with channels in [0,1], the normalization THREE.Color applies
to hex literals. -/
structure Color where
  r : ℚ
  g : ℚ
  b : ℚ
deriving DecidableEq

/-- CONFIG.colors.connections = 0x333333. -/
def connectionsColor : Color := ⟨51/255, 51/255, 51/255⟩

/-- CONFIG.colors.pulseColor = 0xffffff. -/
def pulseColor : Color := ⟨1, 1, 1⟩

/-- The data of one neuron that the animation logic reads: its layer, its slot
inside the layer, and the userData flags set by createLayer. -/
structure NeuronData where
  layerIndex : ℕ
  slot : ℕ
  isInputNeuron : Bool := false
  isOutputNeuron : Bool := false
  isOne : Bool := false
  letter : Char := ' '
deriving DecidableEq

instance : Inhabited NeuronData := ⟨{ layerIndex := 0, slot := 0 }⟩

/-- The output-layer glyph string of createLayer: 25 letters, no J. -/
def alphabet : List Char := "ABCDEFGHIKLMNOPQRSTUVWXYZ".toList

/-- createLayer(neuronCount, x, layerIndex).  The x coordinate only positions
meshes and is dropped.  Branches exactly as in the source: layer 0 is a 4x4
grid of 16 text sprites with a checkerboard isOne role; interior layers are
capped at 667 and trimmed to a perfect square; the last layer is one sprite
per alphabet letter. -/
def createLayer (neuronCount : ℕ) (layerIndex : ℕ) (totalLayers : ℕ) :
    List NeuronData :=
  if layerIndex = 0 then
    (List.range 16).map (fun i =>
      { layerIndex := layerIndex, slot := i, isInputNeuron := true,
        isOne := (i / 4 + i % 4) % 2 == 0 })
  else if layerIndex < totalLayers - 1 then
    let displayCount := min neuronCount 667
    let gridSize := Nat.sqrt displayCount
    let actualCount := gridSize * gridSize
    (List.range actualCount).map (fun i =>
      { layerIndex := layerIndex, slot := i })
  else
    (List.range alphabet.length).map (fun i =>
      { layerIndex := layerIndex, slot := i, isOutputNeuron := true,
        letter := alphabet.getD i ' ' })

/-- A sampled connection: the two endpoint neurons stored in userData. -/
structure Connection where
  fromNeuron : NeuronData
  toNeuron : NeuronData
deriving DecidableEq

instance : Inhabited Connection := ⟨⟨default, default⟩⟩

/-- Math.floor(Math.random() * length): an oracle value r in [0,1) picks
the index floor(r * length). -/
def pickIndex (r : ℚ) (len : ℕ) : ℕ := (⌊r * len⌋).toNat

/-- connectionCount = Math.floor(fromLayer.length * toLayer.length * sampleRate). -/
def connectionCount (fromLen toLen : ℕ) (sampleRate : ℚ) : ℕ :=
  (⌊(fromLen * toLen : ℚ) * sampleRate⌋).toNat

/-- createConnections(fromLayer, toLayer, sampleRate): connectionCount edges,
each picking a uniformly random source and destination (with replacement).
The oracle rng yields the pair of Math.random() draws of iteration i. -/
def createConnections (fromLayer toLayer : List NeuronData) (sampleRate : ℚ)
    (rng : ℕ → ℚ × ℚ) : List Connection :=
  (List.range (connectionCount fromLayer.length toLayer.length sampleRate)).map
    (fun i =>
      { fromNeuron := fromLayer.getD (pickIndex (rng i).1 fromLayer.length) default,
        toNeuron := toLayer.getD (pickIndex (rng i).2 toLayer.length) default })

/-- buildNeuralNetwork, neuron part: one createLayer call per configured size. -/
def networkLayers (layers : List ℕ) : List (List NeuronData) :=
  (List.range layers.length).map
    (fun i => createLayer (layers.getD i 0) i layers.length)

/-- buildNeuralNetwork, connection part: for every layerIndex > 0, connections
from the previous realized layer to the current one.  rng i is the oracle used
for the pair ending at layer i. -/
def networkConnections (layers : List ℕ) (sampleRate : ℚ)
    (rng : ℕ → ℕ → ℚ × ℚ) : List Connection :=
  (List.range layers.length).flatMap (fun i =>
    if i = 0 then []
    else
      createConnections ((networkLayers layers).getD (i - 1) [])
        ((networkLayers layers).getD i []) sampleRate (rng i))

/-- An active pulse: the ridden connection, progress in [0,1), and its speed. -/
structure Pulse where
  connection : Connection
  progress : ℚ
  speed : ℚ
deriving DecidableEq

/-- createPulse(connection): progress 0, speed = 0.03 + Math.random() * 0.02,
with r the Math.random() draw. -/
def createPulse (connection : Connection) (r : ℚ) : Pulse :=
  { connection := connection, progress := 0, speed := 3/100 + r * (2/100) }

/-- connectionLines.filter(conn => conn.userData.fromNeuron === targetNeuron). -/
def outgoingConnections (connectionLines : List Connection)
    (target : NeuronData) : List Connection :=
  connectionLines.filter (fun conn => conn.fromNeuron == target)

/-- The successor pulses spawned when a pulse arrives: numPropagate =
min(2, nextLayerConnections.length) pulses, each on a random connection whose
source is the arrived neuron.  rng j yields the index draw and the speed draw
of iteration j. -/
def pulseSuccessors (connectionLines : List Connection) (pulse : Pulse)
    (rng : ℕ → ℚ × ℚ) : List Pulse :=
  let next := outgoingConnections connectionLines pulse.connection.toNeuron
  let numPropagate := min 2 next.length
  (List.range numPropagate).map (fun j =>
    createPulse (next.getD (pickIndex (rng j).1 next.length) default) (rng j).2)

/-- The fate of one pulse in one frame of animate(): either it keeps traveling
with advanced progress, or progress reached 1 and it is removed, leaving only
its successor pulses. -/
inductive PulseStep where
  | traveling (p : Pulse)
  | arrived (successors : List Pulse)
deriving DecidableEq

/-- One pulse's update inside the per-frame loop: progress += speed; if the
result is at least 1 the pulse arrives (and propagates), else it travels on. -/
def updatePulse (connectionLines : List Connection) (pulse : Pulse)
    (rng : ℕ → ℚ × ℚ) : PulseStep :=
  let progress := pulse.progress + pulse.speed
  if 1 ≤ progress then
    .arrived (pulseSuccessors connectionLines pulse rng)
  else
    .traveling { pulse with progress := progress }

/-- The whole pulse array after one frame.  animate() walks the array from the
last index down to 0, splicing out arrived pulses and pushing successors at
the end, so the result is the surviving pulses in order followed by the
successor blocks in processing (reverse index) order. -/
def updatePulses (connectionLines : List Connection) (pulses : List Pulse)
    (rng : ℕ → ℕ → ℚ × ℚ) : List Pulse :=
  (pulses.filterMap (fun p =>
    if 1 ≤ p.progress + p.speed then none
    else some { p with progress := p.progress + p.speed })) ++
  (pulses.reverse.enum.flatMap (fun ip =>
    if 1 ≤ ip.2.progress + ip.2.speed then
      pulseSuccessors connectionLines ip.2 (rng ip.1)
    else []))

/-- The traveling-wave constants of animate(): pulseWidth = 0.3. -/
def pulseWidth : ℚ := 3/10

/-- distanceFromPulse = Math.abs(0.5 - pulseCenter): the distance between the
pulse's progress position and the sampled point of the uniformly colored
line, its midpoint 0.5. -/
def waveDistance (progress : ℚ) : ℚ := |1/2 - progress|

/-- intensity = Math.max(0, 1 - distanceFromPulse / pulseWidth). -/
def waveIntensity (progress : ℚ) : ℚ :=
  max 0 (1 - waveDistance progress / pulseWidth)

/-- connection.material.opacity = CONFIG.connectionOpacity + intensity * 0.8. -/
def pulsedOpacity (progress : ℚ) : ℚ :=
  connectionOpacity + waveIntensity progress * (8/10)

/-- THREE.Color.lerp: each channel moves toward the target by alpha. -/
def lerpColor (c target : Color) (alpha : ℚ) : Color :=
  ⟨c.r + (target.r - c.r) * alpha,
   c.g + (target.g - c.g) * alpha,
   c.b + (target.b - c.b) * alpha⟩

/-- connection.material.color.copy(darkGray).lerp(brightWhite, intensity). -/
def pulsedColor (progress : ℚ) : Color :=
  lerpColor connectionsColor pulseColor (waveIntensity progress)

/-- The per-frame fade constant of animate(): both the color lerp factor and
the opacity decay factor are 0.15. -/
def decayFactor : ℚ := 15/100

/-- The idle-fade of a connection's opacity: only applied while the opacity
exceeds the configured base. -/
def fadeOpacity (v : ℚ) : ℚ :=
  if connectionOpacity < v then v + (connectionOpacity - v) * decayFactor else v

/-- JS Math.round: round half toward positive infinity. -/
def jsRound (q : ℚ) : ℤ := ⌊q + 1/2⌋

/-- One channel of THREE.Color.getHex():
Math.round(clamp(channel * 255, 0, 255)). -/
def hexChannel (c : ℚ) : ℤ := jsRound (min (max (c * 255) 0) 255)

/-- THREE.Color.getHex(): the three 8-bit-rounded channels packed into one
24-bit integer. -/
def getHex (c : Color) : ℤ :=
  hexChannel c.r * 65536 + hexChannel c.g * 256 + hexChannel c.b

/-- CONFIG.colors.connections as the raw hex integer the fade guard compares
getHex() against. -/
def connectionsHex : ℤ := 0x333333

/-- The idle-fade of a connection's color: lerp toward the connections color
by 0.15, guarded by the comparison color.getHex() !== 0x333333.  getHex
quantizes each channel to 8 bits, so a color whose rounded channels already
all read 0x33 is left untouched even when it is not exactly the idle color. -/
def fadeColor (c : Color) : Color :=
  if getHex c = connectionsHex then c
  else lerpColor c connectionsColor decayFactor

/-- The generic one-frame decay rule value += (target - value) * 0.15. -/
def lerpToward (target v : ℚ) : ℚ := v + (target - v) * decayFactor

/-- The part of the global animation state that drives pulse spawning. -/
structure AnimState where
  animationTime : ℚ
  lastPulseTime : ℚ
  pulses : List Pulse

/-- animationTime += 0.016 per frame. -/
def frameDelta : ℚ := 16/1000

/-- The spawn interval: a pulse burst every 0.2 units of animation time. -/
def pulseInterval : ℚ := 2/10

/-- The connections eligible as pulse starting points: source in input layer. -/
def inputConnections (connectionLines : List Connection) : List Connection :=
  connectionLines.filter (fun conn => conn.fromNeuron.isInputNeuron)

/-- numPulses = Math.min(3, Math.floor(connectionLines.length / 100)). -/
def numPulsesPerSpawn (connCount : ℕ) : ℕ := min 3 (connCount / 100)

/-- The pulses created by one spawn event: numPulses iterations, each picking
a random input-layer connection if any exists.  rng i yields the index draw
and the createPulse speed draw of iteration i. -/
def spawnedPulses (connectionLines : List Connection) (rng : ℕ → ℚ × ℚ) :
    List Pulse :=
  (List.range (numPulsesPerSpawn connectionLines.length)).filterMap (fun i =>
    let ics := inputConnections connectionLines
    if 0 < ics.length then
      some (createPulse (ics.getD (pickIndex (rng i).1 ics.length) default)
        (rng i).2)
    else none)

/-- The periodic spawn block of animate(): fires when more than pulseInterval
of animation time has accumulated since the last spawn; layerCount models
neuronMeshes.length. -/
def spawnStep (connectionLines : List Connection) (layerCount : ℕ)
    (st : AnimState) (rng : ℕ → ℚ × ℚ) : AnimState :=
  if pulseInterval < st.animationTime - st.lastPulseTime then
    { st with
      lastPulseTime := st.animationTime,
      pulses := st.pulses ++
        (if 0 < layerCount ∧ 0 < connectionLines.length then
          spawnedPulses connectionLines rng
        else []) }
  else st

/-- One frame of animate(), restricted to the pulse-relevant state: advance
the clock, run the spawn block, then update every pulse. -/
def frameStep (connectionLines : List Connection) (layerCount : ℕ)
    (rng : ℕ → ℚ × ℚ) (rng2 : ℕ → ℕ → ℚ × ℚ) (st : AnimState) : AnimState :=
  let st1 := { st with animationTime := st.animationTime + frameDelta }
  let st2 := spawnStep connectionLines layerCount st1 rng
  { st2 with pulses := updatePulses connectionLines st2.pulses rng2 }

/-- A whole session of n frames from the initial state (animationTime = 0,
lastPulseTime = 0, no pulses); rngs supplies each frame's oracles. -/
def runFrames (connectionLines : List Connection) (layerCount : ℕ)
    (rngs : ℕ → (ℕ → ℚ × ℚ) × (ℕ → ℕ → ℚ × ℚ)) : ℕ → AnimState
  | 0 => ⟨0, 0, []⟩
  | n + 1 =>
    frameStep connectionLines layerCount (rngs n).1 (rngs n).2
      (runFrames connectionLines layerCount rngs n)

section LayerTheorems

lemma sqrt667 : Nat.sqrt 667 = 25 := by
  have h1 : 25 ≤ Nat.sqrt 667 := Nat.le_sqrt.mpr (by norm_num)
  have h2 : Nat.sqrt 667 < 26 := Nat.sqrt_lt.mpr (by norm_num)
  omega

lemma alphabet_length : alphabet.length = 25 := by decide

lemma alphabet_no_J : ∀ i ∈ List.range alphabet.length,
    (alphabet.getD i ' ' != 'J') = true := by decide

lemma createLayer_input (n total : ℕ) : createLayer n 0 total = createLayer 0 0 2 := by
  simp [createLayer]

lemma createLayer_output (n total : ℕ) (h : 2 ≤ total) :
    createLayer n (total - 1) total =
      (List.range alphabet.length).map (fun i =>
        { layerIndex := total - 1, slot := i, isOutputNeuron := true,
          letter := alphabet.getD i ' ' }) := by
  have h0 : ¬(total - 1 = 0) := by omega
  simp [createLayer, h0]

lemma createLayer_hidden (n i total : ℕ) (h1 : i ≠ 0) (h2 : i < total - 1) :
    createLayer n i total =
      (List.range (Nat.sqrt (min n 667) * Nat.sqrt (min n 667))).map (fun j =>
        { layerIndex := i, slot := j }) := by
  simp [createLayer, h1, h2]

/-- C1: the number of sampled connections between adjacent layers is exactly
floor(|fromLayer| * |toLayer| * rate) over the realized neuron counts; rate 0
yields no connection and rate 1 yields the full product. -/
theorem connection_sampler_count (fromLayer toLayer : List NeuronData)
    (rate : ℚ) (rng : ℕ → ℚ × ℚ) (h : 0 ≤ rate) :
    ((createConnections fromLayer toLayer rate rng).length : ℤ) =
      ⌊(fromLayer.length * toLayer.length : ℚ) * rate⌋ ∧
    (rate = 0 → (createConnections fromLayer toLayer rate rng).length = 0) ∧
    (rate = 1 → (createConnections fromLayer toLayer rate rng).length =
      fromLayer.length * toLayer.length) := by
  have hlen : ∀ rt : ℚ, (createConnections fromLayer toLayer rt rng).length
      = connectionCount fromLayer.length toLayer.length rt := by
    intro rt; simp [createConnections]
  refine ⟨?_, ?_, ?_⟩
  · rw [hlen, connectionCount, Int.toNat_of_nonneg]
    exact Int.floor_nonneg.2 (mul_nonneg (by positivity) h)
  · rintro rfl
    rw [hlen, connectionCount]
    simp
  · rintro rfl
    rw [hlen, connectionCount, mul_one,
      show ((fromLayer.length : ℚ) * toLayer.length)
        = ((fromLayer.length * toLayer.length : ℕ) : ℚ) by push_cast; ring,
      Int.floor_natCast, Int.toNat_natCast]

/-- C1 witness: two three-neuron layers at rate 1/2 yield exactly
floor(2 * 3 * 1/2) = 3 connections. -/
theorem connection_sampler_count_witness :
    ((createConnections [(default : NeuronData), default]
        [(default : NeuronData), default, default] (1/2) (fun _ => (0, 0))).length : ℤ) =
      ⌊(([(default : NeuronData), default].length *
          [(default : NeuronData), default, default].length : ℚ)) * (1/2)⌋ ∧
    ((1 : ℚ)/2 = 0 → (createConnections [(default : NeuronData), default]
        [(default : NeuronData), default, default] (1/2) (fun _ => (0, 0))).length = 0) ∧
    ((1 : ℚ)/2 = 1 → (createConnections [(default : NeuronData), default]
        [(default : NeuronData), default, default] (1/2) (fun _ => (0, 0))).length =
      [(default : NeuronData), default].length *
        [(default : NeuronData), default, default].length) :=
  connection_sampler_count _ _ _ _ (by norm_num)

/-- C2 counterexample: a hidden layer configured at 10000 realizes 625 neurons,
which is neither min(10000, 667) = 667 nor min(10000, 1000) = 1000. -/
theorem hidden_layer_count_not_min_counterexample :
    (createLayer 10000 1 5).length = 625 ∧
    min 10000 667 = 667 ∧ min 10000 1000 = 1000 ∧
    (625 : ℕ) ≠ 667 ∧ (625 : ℕ) ≠ 1000 := by
  refine ⟨?_, by norm_num, by norm_num, by norm_num, by norm_num⟩
  rw [createLayer_hidden 10000 1 5 (by norm_num) (by norm_num)]
  simp [sqrt667]

/-- C2 amended: a hidden layer's realized neuron count is
floor(sqrt(min(configuredSize, 667)))^2, the largest perfect square that is at
most min(configuredSize, 667). -/
theorem hidden_layer_realized_count (n i total : ℕ) (h1 : i ≠ 0)
    (h2 : i < total - 1) :
    (createLayer n i total).length =
      Nat.sqrt (min n 667) * Nat.sqrt (min n 667) ∧
    IsSquare (createLayer n i total).length ∧
    (createLayer n i total).length ≤ min n 667 ∧
    min n 667 < (Nat.sqrt (min n 667) + 1) * (Nat.sqrt (min n 667) + 1) := by
  have hl : (createLayer n i total).length
      = Nat.sqrt (min n 667) * Nat.sqrt (min n 667) := by
    rw [createLayer_hidden n i total h1 h2]; simp
  refine ⟨hl, ⟨Nat.sqrt (min n 667), hl⟩, ?_, ?_⟩
  · rw [hl]; exact Nat.sqrt_le (min n 667)
  · simpa [Nat.succ_eq_add_one] using Nat.lt_succ_sqrt (min n 667)

/-- C2 amended witness: at configured size 10000 the realized count is the
largest perfect square at most 667, namely 625. -/
theorem hidden_layer_realized_count_witness :
    (createLayer 10000 1 5).length =
      Nat.sqrt (min 10000 667) * Nat.sqrt (min 10000 667) ∧
    IsSquare (createLayer 10000 1 5).length ∧
    (createLayer 10000 1 5).length ≤ min 10000 667 ∧
    min 10000 667 <
      (Nat.sqrt (min 10000 667) + 1) * (Nat.sqrt (min 10000 667) + 1) :=
  hidden_layer_realized_count 10000 1 5 (by norm_num) (by norm_num)

/-- C3 counterexample: with the configured sizes [0, 0] the input layer still
realizes 16 neurons, the output layer still realizes 25, and 6 connections
touching the zero-configured input layer are produced. -/
theorem zero_size_layer_counterexample :
    (createLayer 0 0 2).length = 16 ∧
    (createLayer 0 1 2).length = 25 ∧
    (createConnections (createLayer 0 0 2) (createLayer 0 1 2)
      connectionSampleRate (fun _ => (0, 0))).length = 6 := by
  have l1 : (createLayer 0 0 2).length = 16 := by decide
  have l2 : (createLayer 0 1 2).length = 25 := by
    rw [createLayer_output 0 2 (by norm_num)]
    simp [alphabet_length]
  refine ⟨l1, l2, ?_⟩
  have : (createConnections (createLayer 0 0 2) (createLayer 0 1 2)
      connectionSampleRate (fun _ => (0, 0))).length
      = connectionCount 16 25 connectionSampleRate := by
    simp [createConnections, l1, l2]
  rw [this, connectionCount, connectionSampleRate]
  norm_num
  decide

/-- C3 amended: a hidden layer configured at size zero produces no neurons and
no connections touching it, while the input and output layers ignore their
configured sizes (16 and 25 neurons even when configured as 0). -/
theorem zero_hidden_layer_graceful (i total : ℕ) (L : List NeuronData)
    (rate : ℚ) (rng rng' : ℕ → ℚ × ℚ) (h1 : i ≠ 0) (h2 : i < total - 1) :
    createLayer 0 i total = [] ∧
    createConnections (createLayer 0 i total) L rate rng = [] ∧
    createConnections L (createLayer 0 i total) rate rng' = [] ∧
    (createLayer 0 0 total).length = 16 ∧
    (createLayer 0 (total - 1) total).length = 25 := by
  have hempty : createLayer 0 i total = [] := by
    rw [createLayer_hidden 0 i total h1 h2]; simp
  have hin : (createLayer 0 0 total).length = 16 := by
    rw [createLayer_input]; decide
  have hout : (createLayer 0 (total - 1) total).length = 25 := by
    rw [createLayer_output 0 total (by omega)]
    simp [alphabet_length]
  refine ⟨hempty, ?_, ?_, hin, hout⟩ <;>
    rw [hempty] <;> simp [createConnections, connectionCount]

/-- C3 amended witness: concrete three-layer shape with a zero-size hidden
layer in the middle. -/
theorem zero_hidden_layer_graceful_witness :
    createLayer 0 1 3 = [] ∧
    createConnections (createLayer 0 1 3) [(default : NeuronData)] 5
      (fun _ => (0, 0)) = [] ∧
    createConnections [(default : NeuronData)] (createLayer 0 1 3) 5
      (fun _ => (0, 0)) = [] ∧
    (createLayer 0 0 3).length = 16 ∧
    (createLayer 0 (3 - 1) 3).length = 25 :=
  zero_hidden_layer_graceful 1 3 _ 5 _ _ (by norm_num) (by norm_num)

/-- C9: the realized input layer is always exactly the 16 checkerboard on/off
sprites and the realized output layer always the 25 alphabet glyphs (no J),
independently of the configured sizes of the first and last entries. -/
theorem input_output_layers_fixed (n m total : ℕ) (h : 2 ≤ total) :
    (createLayer n 0 total).length = 16 ∧
    (createLayer n (total - 1) total).length = 25 ∧
    createLayer n 0 total = createLayer m 0 total ∧
    createLayer n (total - 1) total = createLayer m (total - 1) total ∧
    ((createLayer n 0 total).filter (fun x => x.isOne)).length = 8 ∧
    (createLayer n 0 total).all
      (fun x => x.isOne == ((x.slot / 4 + x.slot % 4) % 2 == 0)) = true ∧
    (createLayer n (total - 1) total).all (fun x => x.letter != 'J') = true ∧
    (createLayer n (total - 1) total).all
      (fun x => x.letter == alphabet.getD x.slot ' ') = true ∧
    alphabet.length = 25 := by
  have hin := createLayer_input n total
  have hout := createLayer_output n total h
  refine ⟨by rw [hin]; decide, ?_, ?_, ?_, by rw [hin]; decide,
    by rw [hin]; decide, ?_, ?_, alphabet_length⟩
  · rw [hout]; simp [alphabet_length]
  · rw [hin, createLayer_input m total]
  · rw [hout, createLayer_output m total h]
  · rw [hout, List.all_eq_true]
    intro x hx
    rcases List.mem_map.1 hx with ⟨i, hi, rfl⟩
    exact alphabet_no_J i hi
  · rw [hout, List.all_eq_true]
    intro x hx
    rcases List.mem_map.1 hx with ⟨i, hi, rfl⟩
    exact beq_self_eq_true _

/-- C9 witness: five configured layers, configured sizes 0 and 123456 both
realize the fixed input and output layouts. -/
theorem input_output_layers_fixed_witness :
    (createLayer 0 0 5).length = 16 ∧
    (createLayer 0 (5 - 1) 5).length = 25 ∧
    createLayer 0 0 5 = createLayer 123456 0 5 ∧
    createLayer 0 (5 - 1) 5 = createLayer 123456 (5 - 1) 5 ∧
    ((createLayer 0 0 5).filter (fun x => x.isOne)).length = 8 ∧
    (createLayer 0 0 5).all
      (fun x => x.isOne == ((x.slot / 4 + x.slot % 4) % 2 == 0)) = true ∧
    (createLayer 0 (5 - 1) 5).all (fun x => x.letter != 'J') = true ∧
    (createLayer 0 (5 - 1) 5).all
      (fun x => x.letter == alphabet.getD x.slot ' ') = true ∧
    alphabet.length = 25 :=
  input_output_layers_fixed 0 123456 5 (by norm_num)

end LayerTheorems

section NetworkTheorems

lemma getD_mem {α : Type} (l : List α) (n : ℕ) (d : α) (h : n < l.length) :
    l.getD n d ∈ l := by
  rw [List.getD_eq_getElem l d h]
  exact List.getElem_mem h

lemma pickIndex_lt (r : ℚ) (len : ℕ) (h0 : 0 ≤ r) (h1 : r < 1)
    (hl : 0 < len) : pickIndex r len < len := by
  unfold pickIndex
  have hfloor : ⌊r * (len : ℚ)⌋ < (len : ℤ) := by
    rw [Int.floor_lt]
    push_cast
    calc r * len < 1 * len := mul_lt_mul_of_pos_right h1 (by exact_mod_cast hl)
      _ = len := one_mul _
  have hnn : (0 : ℤ) ≤ ⌊r * (len : ℚ)⌋ :=
    Int.floor_nonneg.2 (mul_nonneg h0 (by positivity))
  omega

lemma connectionCount_pos {a b : ℕ} {rate : ℚ}
    (h : 0 < connectionCount a b rate) : 0 < a ∧ 0 < b := by
  constructor
  · rcases Nat.eq_zero_or_pos a with rfl | ha
    · simp [connectionCount] at h
    · exact ha
  · rcases Nat.eq_zero_or_pos b with rfl | hb
    · simp [connectionCount] at h
    · exact hb

lemma createLayer_layerIndex {n i total : ℕ} {x : NeuronData}
    (hx : x ∈ createLayer n i total) : x.layerIndex = i := by
  unfold createLayer at hx
  split at hx
  · next h =>
    rcases List.mem_map.1 hx with ⟨j, _, rfl⟩
    rfl
  · split at hx
    · rcases List.mem_map.1 hx with ⟨j, _, rfl⟩
      rfl
    · rcases List.mem_map.1 hx with ⟨j, _, rfl⟩
      rfl

lemma networkLayers_getD (layers : List ℕ) (j : ℕ) (h : j < layers.length) :
    (networkLayers layers).getD j [] =
      createLayer (layers.getD j 0) j layers.length := by
  unfold networkLayers
  rw [List.getD_eq_getElem _ _ (by simpa using h)]
  simp

/-- C7: every sampled connection joins the two adjacent realized layers, with
the source in the earlier layer and the destination in the immediately
following one; no connection skips a layer or stays inside one. -/
theorem connections_adjacent_layers (layers : List ℕ) (rate : ℚ)
    (rng : ℕ → ℕ → ℚ × ℚ) (c : Connection)
    (hr : ∀ i j, 0 ≤ (rng i j).1 ∧ (rng i j).1 < 1 ∧
      0 ≤ (rng i j).2 ∧ (rng i j).2 < 1)
    (hc : c ∈ networkConnections layers rate rng) :
    c.fromNeuron.layerIndex + 1 = c.toNeuron.layerIndex ∧
    c.toNeuron.layerIndex < layers.length ∧
    c.fromNeuron ∈ (networkLayers layers).getD c.fromNeuron.layerIndex [] ∧
    c.toNeuron ∈ (networkLayers layers).getD c.toNeuron.layerIndex [] := by
  rcases List.mem_flatMap.1 hc with ⟨i, hi, hci⟩
  rw [List.mem_range] at hi
  by_cases h0 : i = 0
  · subst h0
    simp at hci
  · rw [if_neg h0] at hci
    rcases List.mem_map.1 hci with ⟨k, hk, rfl⟩
    rw [List.mem_range] at hk
    have hcount : 0 < connectionCount
        ((networkLayers layers).getD (i - 1) []).length
        ((networkLayers layers).getD i []).length rate :=
      lt_of_le_of_lt (Nat.zero_le k) hk
    have hAB := connectionCount_pos hcount
    have hpiA := pickIndex_lt _ _ (hr i k).1 (hr i k).2.1 hAB.1
    have hpiB := pickIndex_lt _ _ (hr i k).2.2.1 (hr i k).2.2.2 hAB.2
    have hmemA := getD_mem _ _ (default : NeuronData) hpiA
    have hmemB := getD_mem _ _ (default : NeuronData) hpiB
    have hAeq := networkLayers_getD layers (i - 1) (by omega)
    have hBeq := networkLayers_getD layers i hi
    have hmemA' : ((networkLayers layers).getD (i - 1) []).getD
        (pickIndex ((rng i) k).1 ((networkLayers layers).getD (i - 1) []).length)
        default ∈ createLayer (layers.getD (i - 1) 0) (i - 1) layers.length := by
      rw [← hAeq]
      exact hmemA
    have hmemB' : ((networkLayers layers).getD i []).getD
        (pickIndex ((rng i) k).2 ((networkLayers layers).getD i []).length)
        default ∈ createLayer (layers.getD i 0) i layers.length := by
      rw [← hBeq]
      exact hmemB
    have hfl := createLayer_layerIndex hmemA'
    have htl := createLayer_layerIndex hmemB'
    refine ⟨?_, ?_, ?_, ?_⟩
    · show _ + 1 = _
      rw [hfl, htl]
      omega
    · show _ < _
      rw [htl]
      exact hi
    · show _ ∈ (networkLayers layers).getD _ []
      rw [hfl]
      exact hmemA
    · show _ ∈ (networkLayers layers).getD _ []
      rw [htl]
      exact hmemB

lemma witness_net_length :
    (networkConnections [2, 3] (1/400) (fun _ _ => (0, 0))).length = 1 := by
  have hA : (networkLayers [2, 3]).getD 0 [] = createLayer 2 0 2 := by decide
  have hB : (networkLayers [2, 3]).getD 1 [] = createLayer 3 1 2 := by decide
  unfold networkConnections
  rw [show List.range ([2, 3] : List ℕ).length = [0, 1] from rfl,
    List.flatMap_cons, List.flatMap_cons, List.flatMap_nil,
    if_pos rfl, if_neg (by norm_num : ¬(1 : ℕ) = 0), hA, hB]
  simp only [List.nil_append, List.append_nil, createConnections,
    List.length_map, List.length_range]
  rw [show (createLayer 2 0 2).length = 16 by decide,
    show (createLayer 3 1 2).length = 25 by decide]
  unfold connectionCount
  push_cast
  norm_num

/-- C7 witness: the single connection sampled in a two-layer network joins the
input layer (index 0) to the output layer (index 1). -/
theorem connections_adjacent_layers_witness :
    ((networkConnections [2, 3] (1/400) (fun _ _ => (0, 0))).getD 0
      default).fromNeuron.layerIndex + 1 =
    ((networkConnections [2, 3] (1/400) (fun _ _ => (0, 0))).getD 0
      default).toNeuron.layerIndex ∧
    ((networkConnections [2, 3] (1/400) (fun _ _ => (0, 0))).getD 0
      default).toNeuron.layerIndex < ([2, 3] : List ℕ).length ∧
    ((networkConnections [2, 3] (1/400) (fun _ _ => (0, 0))).getD 0
      default).fromNeuron ∈ (networkLayers [2, 3]).getD
      (((networkConnections [2, 3] (1/400) (fun _ _ => (0, 0))).getD 0
        default).fromNeuron.layerIndex) [] ∧
    ((networkConnections [2, 3] (1/400) (fun _ _ => (0, 0))).getD 0
      default).toNeuron ∈ (networkLayers [2, 3]).getD
      (((networkConnections [2, 3] (1/400) (fun _ _ => (0, 0))).getD 0
        default).toNeuron.layerIndex) [] :=
  connections_adjacent_layers [2, 3] (1/400) (fun _ _ => (0, 0)) _
    (fun _ _ => ⟨le_refl 0, by norm_num, le_refl 0, by norm_num⟩)
    (getD_mem _ _ _ (by rw [witness_net_length]; norm_num))

end NetworkTheorems

section PulseTheorems

lemma mem_outgoing {connectionLines : List Connection} {t : NeuronData}
    {x : Connection} (hx : x ∈ outgoingConnections connectionLines t) :
    x ∈ connectionLines ∧ x.fromNeuron = t := by
  unfold outgoingConnections at hx
  have h := List.mem_filter.1 hx
  exact ⟨h.1, by simpa using h.2⟩

lemma pulseSuccessors_length (connectionLines : List Connection)
    (pulse : Pulse) (rng : ℕ → ℚ × ℚ) :
    (pulseSuccessors connectionLines pulse rng).length =
      min 2 (outgoingConnections connectionLines
        pulse.connection.toNeuron).length := by
  simp [pulseSuccessors]

/-- C4: a traveling pulse's progress strictly increases each frame and stays
strictly below 1; the frame its progress reaches 1 the pulse is replaced by
its successors: exactly min(2, outgoing) pulses at progress 0 on connections
whose source is the arrived destination neuron, none when the destination has
no outgoing connection.  The final conjunct records the createPulse speed
band that makes every pulse's speed positive. -/
theorem pulse_progress_state_machine (connectionLines : List Connection)
    (pulse : Pulse) (rng : ℕ → ℚ × ℚ) (rng2 : ℕ → ℕ → ℚ × ℚ)
    (c : Connection) (s : ℚ) (hspeed : 0 < pulse.speed)
    (hr : ∀ j, 0 ≤ (rng j).1 ∧ (rng j).1 < 1) :
    (pulse.progress + pulse.speed < 1 →
      updatePulse connectionLines pulse rng =
        .traveling { pulse with progress := pulse.progress + pulse.speed } ∧
      pulse.progress < pulse.progress + pulse.speed) ∧
    (1 ≤ pulse.progress + pulse.speed →
      updatePulse connectionLines pulse rng =
        .arrived (pulseSuccessors connectionLines pulse rng)) ∧
    (pulse.progress + pulse.speed < 1 →
      updatePulses connectionLines [pulse] rng2 =
        [{ pulse with progress := pulse.progress + pulse.speed }]) ∧
    (1 ≤ pulse.progress + pulse.speed →
      updatePulses connectionLines [pulse] rng2 =
        pulseSuccessors connectionLines pulse (rng2 0)) ∧
    (pulseSuccessors connectionLines pulse rng).length =
      min 2 (outgoingConnections connectionLines
        pulse.connection.toNeuron).length ∧
    (outgoingConnections connectionLines pulse.connection.toNeuron = [] →
      pulseSuccessors connectionLines pulse rng = []) ∧
    (outgoingConnections connectionLines pulse.connection.toNeuron ≠ [] →
      (pulseSuccessors connectionLines pulse rng).length = 1 ∨
      (pulseSuccessors connectionLines pulse rng).length = 2) ∧
    ((pulseSuccessors connectionLines pulse rng).all (fun q =>
      q.progress == 0 &&
      (q.connection.fromNeuron == pulse.connection.toNeuron) &&
      decide (q.connection ∈ connectionLines)) = true) ∧
    (0 ≤ s → s < 1 →
      3/100 ≤ (createPulse c s).speed ∧ (createPulse c s).speed < 5/100 ∧
      (createPulse c s).progress = 0) := by
  refine ⟨?_, ?_, ?_, ?_, pulseSuccessors_length connectionLines pulse rng,
    ?_, ?_, ?_, ?_⟩
  · intro h
    constructor
    · simp only [updatePulse]
      rw [if_neg (not_le.2 h)]
    · linarith
  · intro h
    simp only [updatePulse]
    rw [if_pos h]
  · intro h
    simp [updatePulses, not_le.2 h]
  · intro h
    simp [updatePulses, h]
  · intro h
    simp [pulseSuccessors, h]
  · intro h
    have hlen : (outgoingConnections connectionLines
        pulse.connection.toNeuron).length ≠ 0 := by
      simpa [List.length_eq_zero] using h
    have hmin := pulseSuccessors_length connectionLines pulse rng
    omega
  · simp only [List.all_eq_true]
    intro q hq
    simp only [pulseSuccessors] at hq
    rcases List.mem_map.1 hq with ⟨j, hj, rfl⟩
    rw [List.mem_range] at hj
    have hnext : 0 < (outgoingConnections connectionLines
        pulse.connection.toNeuron).length := by omega
    have hpi := pickIndex_lt _ _ (hr j).1 (hr j).2 hnext
    have hmem := getD_mem _ _ (default : Connection) hpi
    have hout := mem_outgoing hmem
    simp only [createPulse, Bool.and_eq_true, beq_iff_eq, decide_eq_true_eq]
    exact ⟨⟨trivial, hout.2⟩, hout.1⟩
  · intro h0 h1
    have hmul0 : 0 ≤ s * (2/100 : ℚ) := mul_nonneg h0 (by norm_num)
    have hmul1 : s * (2/100 : ℚ) < 1 * (2/100) :=
      mul_lt_mul_of_pos_right h1 (by norm_num)
    refine ⟨?_, ?_, rfl⟩
    · simp only [createPulse]
      linarith
    · simp only [createPulse]
      linarith

/-- Witness data: three neurons on consecutive layers. -/
def sampleNeuronA : NeuronData := { layerIndex := 0, slot := 0 }

/-- Witness data: the middle neuron. -/
def sampleNeuronB : NeuronData := { layerIndex := 1, slot := 0 }

/-- Witness data: the last neuron. -/
def sampleNeuronC : NeuronData := { layerIndex := 2, slot := 0 }

/-- Witness data: the connection A -> B. -/
def sampleConnAB : Connection := ⟨sampleNeuronA, sampleNeuronB⟩

/-- Witness data: the connection B -> C. -/
def sampleConnBC : Connection := ⟨sampleNeuronB, sampleNeuronC⟩

/-- Witness data: the two-edge connection list. -/
def sampleLines : List Connection := [sampleConnAB, sampleConnBC]

/-- Witness data: a pulse on A -> B one step from arrival. -/
def samplePulse : Pulse := ⟨sampleConnAB, 98/100, 3/100⟩

/-- Witness data: a constant zero random oracle. -/
def sampleRng : ℕ → ℚ × ℚ := fun _ => (0, 0)

/-- C4 witness: the concrete pulse on A -> B arrives and propagates along
B -> C. -/
theorem pulse_progress_state_machine_witness :
    (samplePulse.progress + samplePulse.speed < 1 →
      updatePulse sampleLines samplePulse sampleRng =
        .traveling { samplePulse with
          progress := samplePulse.progress + samplePulse.speed } ∧
      samplePulse.progress < samplePulse.progress + samplePulse.speed) ∧
    (1 ≤ samplePulse.progress + samplePulse.speed →
      updatePulse sampleLines samplePulse sampleRng =
        .arrived (pulseSuccessors sampleLines samplePulse sampleRng)) ∧
    (samplePulse.progress + samplePulse.speed < 1 →
      updatePulses sampleLines [samplePulse] (fun _ _ => (0, 0)) =
        [{ samplePulse with
          progress := samplePulse.progress + samplePulse.speed }]) ∧
    (1 ≤ samplePulse.progress + samplePulse.speed →
      updatePulses sampleLines [samplePulse] (fun _ _ => (0, 0)) =
        pulseSuccessors sampleLines samplePulse ((fun _ _ => ((0 : ℚ),
          (0 : ℚ))) 0)) ∧
    (pulseSuccessors sampleLines samplePulse sampleRng).length =
      min 2 (outgoingConnections sampleLines
        samplePulse.connection.toNeuron).length ∧
    (outgoingConnections sampleLines samplePulse.connection.toNeuron = [] →
      pulseSuccessors sampleLines samplePulse sampleRng = []) ∧
    (outgoingConnections sampleLines samplePulse.connection.toNeuron ≠ [] →
      (pulseSuccessors sampleLines samplePulse sampleRng).length = 1 ∨
      (pulseSuccessors sampleLines samplePulse sampleRng).length = 2) ∧
    ((pulseSuccessors sampleLines samplePulse sampleRng).all (fun q =>
      q.progress == 0 &&
      (q.connection.fromNeuron == samplePulse.connection.toNeuron) &&
      decide (q.connection ∈ sampleLines)) = true) ∧
    ((0 : ℚ) ≤ 1/2 → (1 : ℚ)/2 < 1 →
      3/100 ≤ (createPulse sampleConnAB (1/2)).speed ∧
      (createPulse sampleConnAB (1/2)).speed < 5/100 ∧
      (createPulse sampleConnAB (1/2)).progress = 0) :=
  pulse_progress_state_machine sampleLines samplePulse sampleRng
    (fun _ _ => (0, 0)) sampleConnAB (1/2) (by norm_num [samplePulse])
    (fun _ => ⟨le_refl 0, by norm_num [sampleRng]⟩)

end PulseTheorems

section WaveTheorems

lemma pulseWidth_pos : (0 : ℚ) < pulseWidth := by norm_num [pulseWidth]

lemma waveIntensity_le_one (p : ℚ) : waveIntensity p ≤ 1 := by
  unfold waveIntensity
  refine max_le (by norm_num) ?_
  have := div_nonneg (abs_nonneg (1/2 - p)) (le_of_lt pulseWidth_pos)
  unfold waveDistance
  linarith

/-- C5: while a pulse rides a connection, the line's intensity is a falloff of
the distance between the pulse's progress position and the line's sampled
midpoint: nonnegative, at most 1, exactly 1 precisely when the pulse sits at
the sample position, zero once the distance reaches the fixed pulseWidth band,
antitone in the distance; the line's color is the idle color lerped toward the
bright pulse color by that intensity and its opacity raised by 0.8 times it. -/
theorem traveling_wave_intensity (p q : ℚ)
    (hpq : waveDistance p ≤ waveDistance q) :
    waveIntensity (1/2) = 1 ∧
    (0 ≤ waveIntensity p ∧ waveIntensity p ≤ 1) ∧
    (waveIntensity p = 1 ↔ waveDistance p = 0) ∧
    (waveDistance p = 0 ↔ p = 1/2) ∧
    (pulseWidth ≤ waveDistance p → waveIntensity p = 0) ∧
    waveIntensity q ≤ waveIntensity p ∧
    pulsedOpacity p = connectionOpacity + waveIntensity p * (8/10) ∧
    (pulsedColor p).r = connectionsColor.r +
      (pulseColor.r - connectionsColor.r) * waveIntensity p ∧
    (pulsedColor p).g = connectionsColor.g +
      (pulseColor.g - connectionsColor.g) * waveIntensity p ∧
    (pulsedColor p).b = connectionsColor.b +
      (pulseColor.b - connectionsColor.b) * waveIntensity p ∧
    (waveIntensity p = 0 → pulsedColor p = connectionsColor ∧
      pulsedOpacity p = connectionOpacity) ∧
    (p = 1/2 → pulsedColor p = pulseColor) := by
  have hw := pulseWidth_pos
  have hd : 0 ≤ waveDistance p := abs_nonneg _
  refine ⟨?_, ⟨le_max_left _ _, waveIntensity_le_one p⟩, ?_, ?_, ?_, ?_, rfl,
    rfl, rfl, rfl, ?_, ?_⟩
  · norm_num [waveIntensity, waveDistance, pulseWidth]
  · constructor
    · intro h
      have h1 : (1 : ℚ) ≤ 1 - waveDistance p / pulseWidth := by
        rcases max_choice 0 (1 - waveDistance p / pulseWidth) with hm | hm <;>
          rw [waveIntensity, hm] at h
        · norm_num at h
        · linarith
      have h2 : waveDistance p / pulseWidth ≤ 0 := by linarith
      have h3 : 0 ≤ waveDistance p / pulseWidth := div_nonneg hd (le_of_lt hw)
      have h4 : waveDistance p / pulseWidth = 0 := le_antisymm h2 h3
      rw [div_eq_zero_iff] at h4
      rcases h4 with h4 | h4
      · exact h4
      · exact absurd h4 (by norm_num [pulseWidth])
    · intro h
      rw [waveIntensity, h]
      norm_num
  · rw [waveDistance, abs_eq_zero, sub_eq_zero]
    exact ⟨fun h => h.symm, fun h => h.symm⟩
  · intro h
    have h1 : (1 : ℚ) ≤ waveDistance p / pulseWidth := (one_le_div hw).2 h
    rw [waveIntensity]
    exact max_eq_left (by linarith)
  · unfold waveIntensity
    refine max_le_max (le_refl 0) ?_
    have := (div_le_div_iff_of_pos_right hw).2 hpq
    linarith
  · intro h
    constructor
    · rw [pulsedColor, lerpColor, h]
      simp
    · rw [pulsedOpacity, h]
      ring
  · intro h
    subst h
    have h1 : waveIntensity (1/2) = 1 := by
      norm_num [waveIntensity, waveDistance, pulseWidth]
    rw [pulsedColor, lerpColor, h1]
    simp [connectionsColor, pulseColor]

/-- C5 witness: at the sample position the intensity peaks; at distance 2/5,
beyond the 3/10 band, it has dropped to zero. -/
theorem traveling_wave_intensity_witness :
    waveIntensity (1/2) = 1 ∧
    (0 ≤ waveIntensity (1/2) ∧ waveIntensity (1/2) ≤ 1) ∧
    (waveIntensity (1/2) = 1 ↔ waveDistance (1/2) = 0) ∧
    (waveDistance (1/2) = 0 ↔ (1 : ℚ)/2 = 1/2) ∧
    (pulseWidth ≤ waveDistance (1/2) → waveIntensity (1/2) = 0) ∧
    waveIntensity (9/10) ≤ waveIntensity (1/2) ∧
    pulsedOpacity (1/2) = connectionOpacity + waveIntensity (1/2) * (8/10) ∧
    (pulsedColor (1/2)).r = connectionsColor.r +
      (pulseColor.r - connectionsColor.r) * waveIntensity (1/2) ∧
    (pulsedColor (1/2)).g = connectionsColor.g +
      (pulseColor.g - connectionsColor.g) * waveIntensity (1/2) ∧
    (pulsedColor (1/2)).b = connectionsColor.b +
      (pulseColor.b - connectionsColor.b) * waveIntensity (1/2) ∧
    (waveIntensity (1/2) = 0 → pulsedColor (1/2) = connectionsColor ∧
      pulsedOpacity (1/2) = connectionOpacity) ∧
    ((1 : ℚ)/2 = 1/2 → pulsedColor (1/2) = pulseColor) :=
  traveling_wave_intensity (1/2) (9/10)
    (by rw [waveDistance, waveDistance]; norm_num)

end WaveTheorems

section FadeTheorems

/-- The number of frames after which the geometric decay with ratio 17/20 has
provably pushed a starting gap of size d below epsilon. -/
def fadeBound (t v ε : ℚ) : ℕ := (⌊17 * |v - t| / (3 * ε)⌋).toNat + 2

lemma lerpToward_sub (t v : ℚ) : lerpToward t v - t = (17/20) * (v - t) := by
  unfold lerpToward decayFactor
  ring

lemma fadeOpacity_eq {v : ℚ} (h : connectionOpacity ≤ v) :
    fadeOpacity v = lerpToward connectionOpacity v := by
  unfold fadeOpacity lerpToward
  rcases lt_or_eq_of_le h with h | h
  · rw [if_pos h]
  · subst h
    rw [if_neg (lt_irrefl _)]
    ring

lemma fadeOpacity_ge {v : ℚ} (h : connectionOpacity ≤ v) :
    connectionOpacity ≤ fadeOpacity v := by
  rw [fadeOpacity_eq h]
  unfold lerpToward decayFactor
  nlinarith

lemma fadeOpacity_le {v : ℚ} (h : connectionOpacity ≤ v) :
    fadeOpacity v ≤ v := by
  rw [fadeOpacity_eq h]
  unfold lerpToward decayFactor
  nlinarith

lemma fadeOpacity_iterate {v : ℚ} (h : connectionOpacity ≤ v) (n : ℕ) :
    fadeOpacity^[n] v = (lerpToward connectionOpacity)^[n] v ∧
    connectionOpacity ≤ fadeOpacity^[n] v := by
  induction n with
  | zero => simpa using h
  | succ n ih =>
    refine ⟨?_, ?_⟩
    · rw [Function.iterate_succ_apply', Function.iterate_succ_apply',
        fadeOpacity_eq ih.2, ih.1]
    · rw [Function.iterate_succ_apply']
      exact fadeOpacity_ge ih.2

lemma lerpToward_iterate_sub (t v : ℚ) (n : ℕ) :
    (lerpToward t)^[n] v - t = (17/20)^n * (v - t) := by
  induction n with
  | zero => simp
  | succ n ih =>
    rw [Function.iterate_succ_apply', lerpToward_sub, ih, pow_succ]
    ring

lemma pow_contraction_lt {d ε : ℚ} (hd : 0 ≤ d) (hε : 0 < ε) {m : ℕ}
    (hm : (⌊17 * d / (3 * ε)⌋).toNat + 2 ≤ m) : (17/20 : ℚ)^m * d < ε := by
  have hb : (1 : ℚ) + m * (3/17) ≤ (1 + 3/17)^m := one_add_mul_le_pow (by norm_num) m
  have hpos : (0 : ℚ) < 17 + 3 * m := by positivity
  have h20 : ((17 + 3 * m : ℚ))/17 ≤ (20/17)^m := by
    calc ((17 + 3 * m : ℚ))/17 = 1 + m * (3/17) := by ring
      _ ≤ (1 + 3/17)^m := hb
      _ = (20/17)^m := by norm_num
  have hinv : (17/20 : ℚ)^m ≤ 17/(17 + 3 * m) := by
    rw [show ((17 : ℚ)/20) = ((20 : ℚ)/17)⁻¹ by norm_num, inv_pow,
      show ((17 : ℚ))/(17 + 3 * m) = (((17 + 3 * m : ℚ))/17)⁻¹ by
        rw [inv_div]]
    exact inv_anti₀ (by positivity) h20
  have hnn : (0 : ℤ) ≤ ⌊17 * d / (3 * ε)⌋ :=
    Int.floor_nonneg.2 (by positivity)
  have hfl : (17 * d / (3 * ε) : ℚ) - 1 < ((⌊17 * d / (3 * ε)⌋).toNat : ℚ) := by
    calc (17 * d / (3 * ε) : ℚ) - 1 < (⌊17 * d / (3 * ε)⌋ : ℚ) :=
          Int.sub_one_lt_floor _
      _ = ((⌊17 * d / (3 * ε)⌋).toNat : ℚ) := by exact_mod_cast
        (Int.toNat_of_nonneg hnn).symm
  have hmQ : ((⌊17 * d / (3 * ε)⌋).toNat : ℚ) + 2 ≤ (m : ℚ) := by
    exact_mod_cast hm
  have hdiv : 17 * d / (3 * ε) + 1 ≤ (m : ℚ) := by linarith
  have h3ε : (0 : ℚ) < 3 * ε := by positivity
  have h2 : 17 * d ≤ 3 * ε * ((m : ℚ) - 1) := by
    have := (div_le_iff₀ h3ε).1 (by linarith : 17 * d / (3 * ε) ≤ (m : ℚ) - 1)
    linarith
  have hkey : 17 * d < ε * (17 + 3 * m) := by nlinarith
  calc (17/20 : ℚ)^m * d ≤ (17/(17 + 3 * m)) * d :=
        mul_le_mul_of_nonneg_right hinv hd
    _ < ε := by
        rw [div_mul_eq_mul_div, div_lt_iff₀ hpos]
        linarith

lemma abs_lerpToward_sub (t v : ℚ) :
    |lerpToward t v - t| = (17/20) * |v - t| := by
  rw [lerpToward_sub, abs_mul, abs_of_nonneg (by norm_num : (0:ℚ) ≤ 17/20)]

lemma hexChannel_eq_fiftyone {x : ℚ} (h : hexChannel x = 51) :
    |x - 51/255| ≤ 1/510 := by
  unfold hexChannel jsRound at h
  obtain ⟨h1, h2⟩ := Int.floor_eq_iff.1 h
  have hy1 : (101/2 : ℚ) ≤ min (max (x * 255) 0) 255 := by
    push_cast at h1
    linarith
  have hy2 : min (max (x * 255) 0) 255 < 103/2 := by
    push_cast at h2
    linarith
  have hmax : (101/2 : ℚ) ≤ max (x * 255) 0 :=
    le_trans hy1 (min_le_left _ _)
  have hmax' : max (x * 255) 0 = x * 255 := by
    rcases le_or_lt 0 (x * 255) with h0 | h0
    · exact max_eq_left h0
    · exfalso
      rw [max_eq_right (le_of_lt h0)] at hmax
      linarith
  have hmin : min (max (x * 255) 0) 255 = x * 255 := by
    rw [hmax']
    rcases le_or_lt (x * 255) 255 with h255 | h255
    · exact min_eq_left h255
    · exfalso
      rw [hmax', min_eq_right (le_of_lt h255)] at hy2
      linarith
  rw [hmin] at hy1 hy2
  rw [abs_le]
  constructor <;> linarith

lemma hexChannel_nonneg (x : ℚ) : 0 ≤ hexChannel x := by
  unfold hexChannel jsRound
  apply Int.le_floor.2
  have : (0:ℚ) ≤ min (max (x * 255) 0) 255 :=
    le_min (le_max_right _ _) (by norm_num)
  push_cast
  linarith

lemma hexChannel_le (x : ℚ) : hexChannel x ≤ 255 := by
  unfold hexChannel jsRound
  have h : min (max (x * 255) 0) 255 + 1/2 < ((256:ℤ):ℚ) := by
    have := min_le_right (max (x * 255) 0) (255:ℚ)
    push_cast
    linarith
  have := Int.floor_lt.2 h
  omega

lemma getHex_eq_idle {c : Color} (h : getHex c = connectionsHex) :
    hexChannel c.r = 51 ∧ hexChannel c.g = 51 ∧ hexChannel c.b = 51 := by
  unfold getHex connectionsHex at h
  have h1 := hexChannel_nonneg c.r
  have h2 := hexChannel_le c.r
  have h3 := hexChannel_nonneg c.g
  have h4 := hexChannel_le c.g
  have h5 := hexChannel_nonneg c.b
  have h6 := hexChannel_le c.b
  omega

lemma frozen_near_idle {c : Color} (h : getHex c = connectionsHex) :
    |c.r - connectionsColor.r| ≤ 1/510 ∧
    |c.g - connectionsColor.g| ≤ 1/510 ∧
    |c.b - connectionsColor.b| ≤ 1/510 := by
  obtain ⟨h1, h2, h3⟩ := getHex_eq_idle h
  exact ⟨hexChannel_eq_fiftyone h1, hexChannel_eq_fiftyone h2,
    hexChannel_eq_fiftyone h3⟩

lemma fadeColor_channel_bound (c : Color) (n : ℕ) :
    |(fadeColor^[n] c).r - connectionsColor.r| ≤
      max ((17/20)^n * |c.r - connectionsColor.r|) (1/510) ∧
    |(fadeColor^[n] c).g - connectionsColor.g| ≤
      max ((17/20)^n * |c.g - connectionsColor.g|) (1/510) ∧
    |(fadeColor^[n] c).b - connectionsColor.b| ≤
      max ((17/20)^n * |c.b - connectionsColor.b|) (1/510) := by
  induction n with
  | zero =>
    simp only [Function.iterate_zero_apply, pow_zero, one_mul]
    exact ⟨le_max_left _ _, le_max_left _ _, le_max_left _ _⟩
  | succ n ih =>
    rw [Function.iterate_succ_apply']
    by_cases h : getHex (fadeColor^[n] c) = connectionsHex
    · simp only [fadeColor]
      rw [if_pos h]
      have hf := frozen_near_idle h
      exact ⟨le_trans hf.1 (le_max_right _ _),
        le_trans hf.2.1 (le_max_right _ _),
        le_trans hf.2.2 (le_max_right _ _)⟩
    · simp only [fadeColor]
      rw [if_neg h]
      refine ⟨?_, ?_, ?_⟩
      · show |lerpToward connectionsColor.r (fadeColor^[n] c).r -
            connectionsColor.r| ≤ _
        rw [abs_lerpToward_sub]
        calc (17/20) * |(fadeColor^[n] c).r - connectionsColor.r|
            ≤ (17/20) * max ((17/20)^n * |c.r - connectionsColor.r|) (1/510) :=
              mul_le_mul_of_nonneg_left ih.1 (by norm_num)
          _ ≤ max ((17/20)^(n+1) * |c.r - connectionsColor.r|) (1/510) := by
              rw [mul_max_of_nonneg _ _ (by norm_num : (0:ℚ) ≤ 17/20)]
              refine max_le_max (le_of_eq (by ring)) (by norm_num)
      · show |lerpToward connectionsColor.g (fadeColor^[n] c).g -
            connectionsColor.g| ≤ _
        rw [abs_lerpToward_sub]
        calc (17/20) * |(fadeColor^[n] c).g - connectionsColor.g|
            ≤ (17/20) * max ((17/20)^n * |c.g - connectionsColor.g|) (1/510) :=
              mul_le_mul_of_nonneg_left ih.2.1 (by norm_num)
          _ ≤ max ((17/20)^(n+1) * |c.g - connectionsColor.g|) (1/510) := by
              rw [mul_max_of_nonneg _ _ (by norm_num : (0:ℚ) ≤ 17/20)]
              refine max_le_max (le_of_eq (by ring)) (by norm_num)
      · show |lerpToward connectionsColor.b (fadeColor^[n] c).b -
            connectionsColor.b| ≤ _
        rw [abs_lerpToward_sub]
        calc (17/20) * |(fadeColor^[n] c).b - connectionsColor.b|
            ≤ (17/20) * max ((17/20)^n * |c.b - connectionsColor.b|) (1/510) :=
              mul_le_mul_of_nonneg_left ih.2.2 (by norm_num)
          _ ≤ max ((17/20)^(n+1) * |c.b - connectionsColor.b|) (1/510) := by
              rw [mul_max_of_nonneg _ _ (by norm_num : (0:ℚ) ≤ 17/20)]
              refine max_le_max (le_of_eq (by ring)) (by norm_num)

/-- C8 counterexample: the color whose red channel sits 1/1000 above idle
rounds to the idle hex 0x333333, so the getHex guard freezes it: the fade
never moves it toward the idle color (one frame and 100 frames leave it
unchanged, and it differs from what the lerp rule would produce), and its red
gap stays exactly 1/1000, never below epsilon = 1/2000. -/
theorem connection_color_freeze_counterexample :
    getHex ⟨51/255 + 1/1000, 51/255, 51/255⟩ = connectionsHex ∧
    fadeColor ⟨51/255 + 1/1000, 51/255, 51/255⟩ =
      ⟨51/255 + 1/1000, 51/255, 51/255⟩ ∧
    fadeColor^[100] ⟨51/255 + 1/1000, 51/255, 51/255⟩ =
      ⟨51/255 + 1/1000, 51/255, 51/255⟩ ∧
    (⟨51/255 + 1/1000, 51/255, 51/255⟩ : Color).r - connectionsColor.r =
      1/1000 ∧
    ¬((⟨51/255 + 1/1000, 51/255, 51/255⟩ : Color).r - connectionsColor.r <
      1/2000) ∧
    fadeColor ⟨51/255 + 1/1000, 51/255, 51/255⟩ ≠
      lerpColor ⟨51/255 + 1/1000, 51/255, 51/255⟩ connectionsColor
        decayFactor := by
  have e1 : hexChannel (51/255 + 1/1000) = 51 := by
    unfold hexChannel jsRound
    rw [show ((51:ℚ)/255 + 1/1000) * 255 = 51255/1000 by norm_num,
      max_eq_left (by norm_num : (0:ℚ) ≤ 51255/1000),
      min_eq_left (by norm_num : (51255/1000:ℚ) ≤ 255)]
    norm_num
  have e2 : hexChannel (51/255) = 51 := by
    unfold hexChannel jsRound
    rw [show ((51:ℚ)/255) * 255 = 51 by norm_num,
      max_eq_left (by norm_num : (0:ℚ) ≤ (51:ℚ)),
      min_eq_left (by norm_num : (51:ℚ) ≤ 255)]
    norm_num
  have hhex : getHex ⟨51/255 + 1/1000, 51/255, 51/255⟩ = connectionsHex := by
    show hexChannel (51/255 + 1/1000) * 65536 + hexChannel (51/255) * 256 +
      hexChannel (51/255) = 3355443
    rw [e1, e2]
    norm_num
  have hfix : fadeColor ⟨51/255 + 1/1000, 51/255, 51/255⟩ =
      ⟨51/255 + 1/1000, 51/255, 51/255⟩ := by
    simp only [fadeColor]
    rw [if_pos hhex]
  refine ⟨hhex, hfix, Function.iterate_fixed hfix 100,
    by norm_num [connectionsColor], by norm_num [connectionsColor], ?_⟩
  rw [hfix]
  intro heq
  have hr := congrArg Color.r heq
  simp only [lerpColor] at hr
  norm_num [connectionsColor, decayFactor] at hr

/-- C8 amended: a visible connection's opacity obeys
value += (target - value) * 0.15 toward the idle opacity, squeezed between
the idle value and its previous value (monotone, no overshoot), the gap
shrinking geometrically by 17/20 per frame, hence within any epsilon after
fadeBound frames.  The color lerps toward the idle color by the same rule
only while its 8-bit getHex quantization differs from the idle hex; a color
whose quantization matches is frozen, so after fadeBound frames every channel
is within epsilon of the idle channel or within the quantization residual
1/510 at which the guard stops the fade. -/
theorem connection_idle_decay (v ε : ℚ) (n m : ℕ) (c : Color)
    (hv : connectionOpacity ≤ v) (hε : 0 < ε)
    (hm : fadeBound connectionOpacity v ε ≤ m)
    (hmr : fadeBound connectionsColor.r c.r ε ≤ m)
    (hmg : fadeBound connectionsColor.g c.g ε ≤ m)
    (hmb : fadeBound connectionsColor.b c.b ε ≤ m) :
    fadeOpacity v = v + (connectionOpacity - v) * decayFactor ∧
    (connectionOpacity ≤ fadeOpacity v ∧ fadeOpacity v ≤ v) ∧
    (connectionOpacity ≤ fadeOpacity^[n] v ∧
      fadeOpacity^[n + 1] v ≤ fadeOpacity^[n] v) ∧
    fadeOpacity^[n] v - connectionOpacity =
      (17/20)^n * (v - connectionOpacity) ∧
    (connectionOpacity ≤ fadeOpacity^[m] v ∧
      fadeOpacity^[m] v - connectionOpacity < ε) ∧
    (getHex c ≠ connectionsHex →
      fadeColor c = ⟨c.r + (connectionsColor.r - c.r) * decayFactor,
        c.g + (connectionsColor.g - c.g) * decayFactor,
        c.b + (connectionsColor.b - c.b) * decayFactor⟩) ∧
    (getHex c = connectionsHex → fadeColor c = c) ∧
    (getHex c = connectionsHex →
      |c.r - connectionsColor.r| ≤ 1/510 ∧
      |c.g - connectionsColor.g| ≤ 1/510 ∧
      |c.b - connectionsColor.b| ≤ 1/510) ∧
    ((|(fadeColor^[m] c).r - connectionsColor.r| < ε ∨
        |(fadeColor^[m] c).r - connectionsColor.r| ≤ 1/510) ∧
      (|(fadeColor^[m] c).g - connectionsColor.g| < ε ∨
        |(fadeColor^[m] c).g - connectionsColor.g| ≤ 1/510) ∧
      (|(fadeColor^[m] c).b - connectionsColor.b| < ε ∨
        |(fadeColor^[m] c).b - connectionsColor.b| ≤ 1/510)) := by
  have hiter := fadeOpacity_iterate hv
  have hbound := fadeColor_channel_bound c m
  refine ⟨by rw [fadeOpacity_eq hv]; rfl,
    ⟨fadeOpacity_ge hv, fadeOpacity_le hv⟩, ⟨(hiter n).2, ?_⟩, ?_, ?_, ?_,
    ?_, fun h => frozen_near_idle h, ⟨?_, ?_, ?_⟩⟩
  · rw [Function.iterate_succ_apply']
    exact fadeOpacity_le (hiter n).2
  · rw [(hiter n).1]
    exact lerpToward_iterate_sub _ _ n
  · refine ⟨(hiter m).2, ?_⟩
    rw [(hiter m).1, lerpToward_iterate_sub]
    exact pow_contraction_lt (by linarith) hε
      (by simpa [fadeBound, abs_of_nonneg (by linarith : (0:ℚ) ≤
        v - connectionOpacity)] using hm)
  · intro h
    simp only [fadeColor]
    rw [if_neg h]
    rfl
  · intro h
    simp only [fadeColor]
    rw [if_pos h]
  · rcases le_max_iff.1 hbound.1 with h | h
    · exact Or.inl (lt_of_le_of_lt h
        (pow_contraction_lt (abs_nonneg _) hε
          (by simpa [fadeBound] using hmr)))
    · exact Or.inr h
  · rcases le_max_iff.1 hbound.2.1 with h | h
    · exact Or.inl (lt_of_le_of_lt h
        (pow_contraction_lt (abs_nonneg _) hε
          (by simpa [fadeBound] using hmg)))
    · exact Or.inr h
  · rcases le_max_iff.1 hbound.2.2 with h | h
    · exact Or.inl (lt_of_le_of_lt h
        (pow_contraction_lt (abs_nonneg _) hε
          (by simpa [fadeBound] using hmb)))
    · exact Or.inr h

/-- C8 witness: opacity 1/2 reaches within epsilon = 1/10 of the idle value
in 60 frames, and each channel of a full-white color is then within 1/10 of
idle or inside the frozen quantization residual. -/
theorem connection_idle_decay_witness :
    fadeOpacity (1/2) = 1/2 + (connectionOpacity - 1/2) * decayFactor ∧
    (connectionOpacity ≤ fadeOpacity (1/2) ∧ fadeOpacity (1/2) ≤ 1/2) ∧
    (connectionOpacity ≤ fadeOpacity^[2] (1/2) ∧
      fadeOpacity^[2 + 1] (1/2) ≤ fadeOpacity^[2] (1/2)) ∧
    fadeOpacity^[2] (1/2) - connectionOpacity =
      (17/20)^2 * (1/2 - connectionOpacity) ∧
    (connectionOpacity ≤ fadeOpacity^[60] (1/2) ∧
      fadeOpacity^[60] (1/2) - connectionOpacity < 1/10) ∧
    (getHex ⟨1, 1, 1⟩ ≠ connectionsHex →
      fadeColor ⟨1, 1, 1⟩ =
        ⟨(⟨1, 1, 1⟩ : Color).r +
            (connectionsColor.r - (⟨1, 1, 1⟩ : Color).r) * decayFactor,
          (⟨1, 1, 1⟩ : Color).g +
            (connectionsColor.g - (⟨1, 1, 1⟩ : Color).g) * decayFactor,
          (⟨1, 1, 1⟩ : Color).b +
            (connectionsColor.b - (⟨1, 1, 1⟩ : Color).b) * decayFactor⟩) ∧
    (getHex ⟨1, 1, 1⟩ = connectionsHex → fadeColor ⟨1, 1, 1⟩ = ⟨1, 1, 1⟩) ∧
    (getHex ⟨1, 1, 1⟩ = connectionsHex →
      |(⟨1, 1, 1⟩ : Color).r - connectionsColor.r| ≤ 1/510 ∧
      |(⟨1, 1, 1⟩ : Color).g - connectionsColor.g| ≤ 1/510 ∧
      |(⟨1, 1, 1⟩ : Color).b - connectionsColor.b| ≤ 1/510) ∧
    ((|(fadeColor^[60] ⟨1, 1, 1⟩).r - connectionsColor.r| < 1/10 ∨
        |(fadeColor^[60] ⟨1, 1, 1⟩).r - connectionsColor.r| ≤ 1/510) ∧
      (|(fadeColor^[60] ⟨1, 1, 1⟩).g - connectionsColor.g| < 1/10 ∨
        |(fadeColor^[60] ⟨1, 1, 1⟩).g - connectionsColor.g| ≤ 1/510) ∧
      (|(fadeColor^[60] ⟨1, 1, 1⟩).b - connectionsColor.b| < 1/10 ∨
        |(fadeColor^[60] ⟨1, 1, 1⟩).b - connectionsColor.b| ≤ 1/510)) :=
  connection_idle_decay (1/2) (1/10) 2 60 ⟨1, 1, 1⟩
    (by norm_num [connectionOpacity]) (by norm_num)
    (by (norm_num [fadeBound, connectionOpacity, abs_of_nonneg]; omega))
    (by (norm_num [fadeBound, connectionsColor, abs_of_nonneg]; omega))
    (by (norm_num [fadeBound, connectionsColor, abs_of_nonneg]; omega))
    (by (norm_num [fadeBound, connectionsColor, abs_of_nonneg]; omega))

end FadeTheorems

section SpawnTheorems

lemma spawn_lt_iff (k : ℕ) :
    pulseInterval < (k : ℚ) * frameDelta ↔ 13 ≤ k := by
  unfold pulseInterval frameDelta
  constructor
  · intro h
    by_contra hk
    push_neg at hk
    have hk' : (k : ℚ) ≤ 12 := by exact_mod_cast Nat.lt_succ_iff.mp hk
    linarith
  · intro h
    have h' : (13 : ℚ) ≤ (k : ℚ) := by exact_mod_cast h
    linarith

lemma spawn_le_iff (k : ℕ) :
    pulseInterval ≤ (k : ℚ) * frameDelta ↔ 13 ≤ k := by
  unfold pulseInterval frameDelta
  constructor
  · intro h
    by_contra hk
    push_neg at hk
    have hk' : (k : ℚ) ≤ 12 := by exact_mod_cast Nat.lt_succ_iff.mp hk
    linarith
  · intro h
    have h' : (13 : ℚ) ≤ (k : ℚ) := by exact_mod_cast h
    linarith

lemma mem_input {connectionLines : List Connection} {x : Connection}
    (hx : x ∈ inputConnections connectionLines) :
    x ∈ connectionLines ∧ x.fromNeuron.isInputNeuron = true := by
  unfold inputConnections at hx
  exact List.mem_filter.1 hx

lemma spawnedPulses_of_input_nonempty (connectionLines : List Connection)
    (rng : ℕ → ℚ × ℚ) (h : inputConnections connectionLines ≠ []) :
    spawnedPulses connectionLines rng =
      (List.range (numPulsesPerSpawn connectionLines.length)).map (fun i =>
        createPulse ((inputConnections connectionLines).getD
          (pickIndex (rng i).1 (inputConnections connectionLines).length)
          default) (rng i).2) := by
  have hpos : 0 < (inputConnections connectionLines).length :=
    List.length_pos.2 h
  unfold spawnedPulses
  rw [show (fun i => if 0 < (inputConnections connectionLines).length then
      some (createPulse ((inputConnections connectionLines).getD
        (pickIndex (rng i).1 (inputConnections connectionLines).length)
        default) (rng i).2) else none) = some ∘ (fun i =>
      createPulse ((inputConnections connectionLines).getD
        (pickIndex (rng i).1 (inputConnections connectionLines).length)
        default) (rng i).2) from funext fun i => if_pos hpos,
    List.filterMap_eq_map]

/-- C6: the spawn block fires exactly when more than 0.2 units of accumulated
animation time have passed since the last spawn (for the reachable clock
values k * 0.016 the strict and non-strict comparisons agree, both meaning at
least 13 frames); it then emits min(3, floor(connections/100)) pulses, each at
progress 0 on a connection whose source neuron is in the input layer; the
clock itself advances by the fixed 0.016 per frame independent of wall-clock
time. -/
theorem pulse_spawn_schedule (connectionLines : List Connection)
    (layerCount k : ℕ) (st : AnimState) (rng : ℕ → ℚ × ℚ)
    (rng2 : ℕ → ℕ → ℚ × ℚ)
    (hr : ∀ i, 0 ≤ (rng i).1 ∧ (rng i).1 < 1) :
    (frameStep connectionLines layerCount rng rng2 st).animationTime =
      st.animationTime + frameDelta ∧
    (¬ pulseInterval < st.animationTime - st.lastPulseTime →
      spawnStep connectionLines layerCount st rng = st) ∧
    (pulseInterval < st.animationTime - st.lastPulseTime →
      (spawnStep connectionLines layerCount st rng).lastPulseTime =
        st.animationTime ∧
      (0 < layerCount ∧ 0 < connectionLines.length →
        (spawnStep connectionLines layerCount st rng).pulses =
          st.pulses ++ spawnedPulses connectionLines rng)) ∧
    ((pulseInterval < (k : ℚ) * frameDelta) ↔
      (pulseInterval ≤ (k : ℚ) * frameDelta)) ∧
    ((pulseInterval < (k : ℚ) * frameDelta) ↔ 13 ≤ k) ∧
    numPulsesPerSpawn connectionLines.length =
      min 3 (connectionLines.length / 100) ∧
    (inputConnections connectionLines ≠ [] →
      (spawnedPulses connectionLines rng).length =
        numPulsesPerSpawn connectionLines.length) ∧
    (inputConnections connectionLines = [] →
      spawnedPulses connectionLines rng = []) ∧
    ((spawnedPulses connectionLines rng).all (fun p =>
      p.connection.fromNeuron.isInputNeuron && p.progress == 0 &&
      decide (p.connection ∈ connectionLines)) = true) := by
  refine ⟨?_, ?_, ?_, ?_, spawn_lt_iff k, rfl, ?_, ?_, ?_⟩
  · show (spawnStep connectionLines layerCount
      { st with animationTime := st.animationTime + frameDelta }
      rng).animationTime = st.animationTime + frameDelta
    unfold spawnStep
    split <;> rfl
  · intro h
    unfold spawnStep
    rw [if_neg h]
  · intro h
    constructor
    · unfold spawnStep
      rw [if_pos h]
    · intro hcl
      unfold spawnStep
      rw [if_pos h]
      show st.pulses ++ _ = _
      rw [if_pos hcl]
  · rw [spawn_lt_iff, spawn_le_iff]
  · intro h
    rw [spawnedPulses_of_input_nonempty connectionLines rng h,
      List.length_map, List.length_range]
  · intro h
    simp [spawnedPulses, h]
  · simp only [List.all_eq_true]
    intro p hp
    simp only [spawnedPulses] at hp
    rcases List.mem_filterMap.1 hp with ⟨i, hi, hsome⟩
    by_cases hpos : 0 < (inputConnections connectionLines).length
    · rw [if_pos hpos] at hsome
      have hp' := Option.some.inj hsome
      subst hp'
      have hpi := pickIndex_lt _ _ (hr i).1 (hr i).2 hpos
      have hmem := getD_mem _ _ (default : Connection) hpi
      have hmi := mem_input hmem
      simp only [createPulse, Bool.and_eq_true, beq_iff_eq, decide_eq_true_eq]
      exact ⟨⟨hmi.2, trivial⟩, hmi.1⟩
    · rw [if_neg hpos] at hsome
      exact Option.noConfusion hsome

/-- Witness data: an input-layer source neuron. -/
def sampleInputNeuron : NeuronData :=
  { layerIndex := 0, slot := 0, isInputNeuron := true }

/-- Witness data: a connection out of the input layer. -/
def sampleInputConn : Connection := ⟨sampleInputNeuron, sampleNeuronB⟩

/-- Witness data: 150 copies of the input-sourced connection, enough for the
spawn cap min(3, floor(150/100)) = 1. -/
def sampleManyLines : List Connection := List.replicate 150 sampleInputConn

/-- Witness data: an animation state 0.21 time units past the last spawn. -/
def sampleState : AnimState := ⟨21/100, 0, []⟩

/-- Witness data: a constant zero two-index oracle. -/
def sampleRng2 : ℕ → ℕ → ℚ × ℚ := fun _ _ => (0, 0)

/-- C6 witness: at 150 connections and 0.21 accumulated time the spawn block
fires and emits one pulse from the input layer. -/
theorem pulse_spawn_schedule_witness :
    (frameStep sampleManyLines 5 sampleRng sampleRng2
      sampleState).animationTime = sampleState.animationTime + frameDelta ∧
    (¬ pulseInterval < sampleState.animationTime - sampleState.lastPulseTime →
      spawnStep sampleManyLines 5 sampleState sampleRng = sampleState) ∧
    (pulseInterval < sampleState.animationTime - sampleState.lastPulseTime →
      (spawnStep sampleManyLines 5 sampleState sampleRng).lastPulseTime =
        sampleState.animationTime ∧
      (0 < 5 ∧ 0 < sampleManyLines.length →
        (spawnStep sampleManyLines 5 sampleState sampleRng).pulses =
          sampleState.pulses ++ spawnedPulses sampleManyLines sampleRng)) ∧
    ((pulseInterval < (13 : ℕ) * frameDelta) ↔
      (pulseInterval ≤ (13 : ℕ) * frameDelta)) ∧
    ((pulseInterval < (13 : ℕ) * frameDelta) ↔ 13 ≤ 13) ∧
    numPulsesPerSpawn sampleManyLines.length =
      min 3 (sampleManyLines.length / 100) ∧
    (inputConnections sampleManyLines ≠ [] →
      (spawnedPulses sampleManyLines sampleRng).length =
        numPulsesPerSpawn sampleManyLines.length) ∧
    (inputConnections sampleManyLines = [] →
      spawnedPulses sampleManyLines sampleRng = []) ∧
    ((spawnedPulses sampleManyLines sampleRng).all (fun p =>
      p.connection.fromNeuron.isInputNeuron && p.progress == 0 &&
      decide (p.connection ∈ sampleManyLines)) = true) :=
  pulse_spawn_schedule sampleManyLines 5 13 sampleState sampleRng sampleRng2
    (fun _ => ⟨le_refl 0, by norm_num [sampleRng]⟩)

lemma spawnedPulses_zero (connectionLines : List Connection)
    (rng : ℕ → ℚ × ℚ) (h : numPulsesPerSpawn connectionLines.length = 0) :
    spawnedPulses connectionLines rng = [] := by
  unfold spawnedPulses
  rw [h]
  rfl

/-- C10: with fewer than 100 sampled connections the per-spawn pulse count
min(3, floor(connections/100)) is 0, and since successors only arise from
existing pulses, no pulse ever exists in any frame of the session. -/
theorem no_pulse_when_under_hundred (connectionLines : List Connection)
    (layerCount : ℕ) (rngs : ℕ → (ℕ → ℚ × ℚ) × (ℕ → ℕ → ℚ × ℚ)) (n : ℕ)
    (h : connectionLines.length < 100) :
    numPulsesPerSpawn connectionLines.length = 0 ∧
    (runFrames connectionLines layerCount rngs n).pulses = [] := by
  have hnum : numPulsesPerSpawn connectionLines.length = 0 := by
    unfold numPulsesPerSpawn
    rw [Nat.div_eq_of_lt h]
    rfl
  refine ⟨hnum, ?_⟩
  induction n with
  | zero => rfl
  | succ n ih =>
    show (frameStep connectionLines layerCount (rngs n).1 (rngs n).2
      (runFrames connectionLines layerCount rngs n)).pulses = []
    show (updatePulses connectionLines
      (spawnStep connectionLines layerCount
        { runFrames connectionLines layerCount rngs n with
          animationTime := (runFrames connectionLines layerCount rngs
            n).animationTime + frameDelta } (rngs n).1).pulses
      (rngs n).2) = []
    have hsp : (spawnStep connectionLines layerCount
        { runFrames connectionLines layerCount rngs n with
          animationTime := (runFrames connectionLines layerCount rngs
            n).animationTime + frameDelta } (rngs n).1).pulses = [] := by
      unfold spawnStep
      split
      · show (runFrames connectionLines layerCount rngs n).pulses ++ _ = []
        rw [ih, List.nil_append]
        split
        · exact spawnedPulses_zero connectionLines (rngs n).1 hnum
        · rfl
      · exact ih
    rw [hsp]
    rfl

/-- C10 witness: a session of 20 frames over 50 sampled connections never
creates a pulse. -/
theorem no_pulse_when_under_hundred_witness :
    numPulsesPerSpawn (List.replicate 50 sampleConnAB).length = 0 ∧
    (runFrames (List.replicate 50 sampleConnAB) 5
      (fun _ => (sampleRng, sampleRng2)) 20).pulses = [] :=
  no_pulse_when_under_hundred (List.replicate 50 sampleConnAB) 5
    (fun _ => (sampleRng, sampleRng2)) 20 (by simp)

end SpawnTheorems

end NeuralNetAnim
